import Mathlib

/-!
Shallow embedding of the `vue-monitor` telemetry core (TypeScript) and
verification of its specification claims.

Sources embedded:
* `src/types.ts` — the `Breadcrumb`, `ErrorInfo`, `MonitorOptions` records.
* `src/monitor.ts` — the `VueMonitor` class: constructor defaulting,
  `getErrorHash`, `addBreadcrumb`, `reportError` (map-sweep dedup variant),
  the behavior-recording value redaction, and `initFrameDropMonitor`.
* `src/utils.ts` — `throttle` (its state is inlined into the frame-drop
  monitor state below).
* `src/index.ts` — the plugin `install` entry point.
* the unnamed legacy variant of `monitor.ts` (ordered-eviction-queue dedup),
  embedded as the `Q`-prefixed definitions.

Conventions: JS `number` time values are `Int` (milliseconds); a JS `Map` is
an insertion-ordered association list `List (String × Int)`; optional fields
are `Option`; JS numeric truthiness (`x || d`, `x ??= d`) is modelled
explicitly.  The browser is single-threaded, so each handler runs to
completion; state-passing functions model each handler body.
-/

namespace VueMonitor

/-- `Breadcrumb` from `src/types.ts`. -/
structure Breadcrumb where
  type : String
  target : Option String
  value : Option String
  timestamp : String
deriving DecidableEq, Repr

/-- `ErrorInfo` from `src/types.ts`. -/
structure ErrorInfo where
  message : String
  stack : Option String
  errInfo : Option String
  url : String
  timestamp : String
deriving DecidableEq, Repr

/-- `MonitorOptions` from `src/types.ts`, as supplied by the caller:
optional numeric/boolean fields may be absent (`undefined`). -/
structure MonitorOptionsIn where
  reportUrl : String
  projectName : Option String
  projectVersion : Option String
  maxBreadcrumbs : Option Nat
  errorThrottleTime : Option Int
  filterInputAndScanData : Option Bool
deriving DecidableEq, Repr

/-- Options after the `VueMonitor` constructor has run: the numeric and
boolean fields are resolved. -/
structure MonitorOptions where
  reportUrl : String
  projectName : Option String
  projectVersion : Option String
  maxBreadcrumbs : Nat
  errorThrottleTime : Int
  filterInputAndScanData : Bool
deriving DecidableEq, Repr

/-- JS `x ||= d` / `x || d` on an optional number: `undefined` and `0` are
falsy and replaced by the default. -/
def jsOrNat (v : Option Nat) (d : Nat) : Nat :=
  match v with
  | some n => if n = 0 then d else n
  | none => d

/-- JS `x ||= d` on an optional numeric (Int) field. -/
def jsOrInt (v : Option Int) (d : Int) : Int :=
  match v with
  | some n => if n = 0 then d else n
  | none => d

/-- The `VueMonitor` constructor body (`src/monitor.ts` lines 8–14):
`maxBreadcrumbs ||= 30`, `errorThrottleTime ||= 60 * 1000`,
`filterInputAndScanData ??= true` (`??=` fills only `undefined`/`null`,
so an explicit `false` is kept). -/
def constructOptions (o : MonitorOptionsIn) : MonitorOptions :=
  { reportUrl := o.reportUrl
    projectName := o.projectName
    projectVersion := o.projectVersion
    maxBreadcrumbs := jsOrNat o.maxBreadcrumbs 30
    errorThrottleTime := jsOrInt o.errorThrottleTime (60 * 1000)
    filterInputAndScanData := o.filterInputAndScanData.getD true }

/-- `VueMonitor.addBreadcrumb` (`src/monitor.ts` lines 160–164):
`push` the new breadcrumb, then if
`length > (this.options.maxBreadcrumbs || 20)` remove the oldest
(`shift`). -/
def addBreadcrumb (maxBreadcrumbs : Nat) (buf : List Breadcrumb) (b : Breadcrumb) :
    List Breadcrumb :=
  let buf1 := buf ++ [b]
  if (if maxBreadcrumbs = 0 then 20 else maxBreadcrumbs) < buf1.length then
    buf1.tail
  else
    buf1

/-- A sequence of `addBreadcrumb` calls, in order. -/
def recordAll (maxBreadcrumbs : Nat) (buf : List Breadcrumb) (bs : List Breadcrumb) :
    List Breadcrumb :=
  bs.foldl (addBreadcrumb maxBreadcrumbs) buf

/-- JS template-literal coercion of a possibly-`undefined` string: an absent
value renders as the literal text `undefined`. -/
def jsStr (s : Option String) : String :=
  match s with
  | some v => v
  | none => "undefined"

/-- `VueMonitor.getErrorHash` (`src/monitor.ts` lines 16–18):
the template literal `` `${e.message}-${e.stack}-${e.url}` ``. -/
def getErrorHash (e : ErrorInfo) : String :=
  e.message ++ "-" ++ jsStr e.stack ++ "-" ++ e.url

/-- `Map.get` on an insertion-ordered association list. -/
def mapLookup (h : String) : List (String × Int) → Option Int
  | [] => none
  | (k, t) :: rest => if k = h then some t else mapLookup h rest

/-- `Map.set`: update the existing binding in place (a JS `Map` keeps the
original insertion position), else append a new binding. -/
def mapSet (h : String) (v : Int) (c : List (String × Int)) : List (String × Int) :=
  if (mapLookup h c).isSome then
    c.map (fun p => if p.1 = h then (h, v) else p)
  else
    c ++ [(h, v)]

/-- `Map.delete`. -/
def mapDelete (h : String) (c : List (String × Int)) : List (String × Int) :=
  c.filter (fun p => decide (p.1 ≠ h))

/-- The expiry sweep of `VueMonitor.reportError` (`src/monitor.ts` lines
182–184): iterate over all cache entries and delete every `(h, t)` with
`now - t > limit`.  Deleting during a JS `Map` iteration keeps the not-yet
visited entries, so the loop is exactly a filter. -/
def sweepMap (now limit : Int) (c : List (String × Int)) : List (String × Int) :=
  c.filter (fun p => decide (now - p.2 ≤ limit))

/-- The mutable `VueMonitor` fields of `src/monitor.ts`: the breadcrumb
buffer and the dedup cache (a JS `Map` from hash to last-seen time). -/
structure MonitorState where
  breadcrumbs : List Breadcrumb
  errorCache : List (String × Int)
deriving DecidableEq, Repr

/-- The wire payload built by `reportError` (`src/monitor.ts` lines 193–199).
`JSON.stringify(payload)` runs synchronously inside `reportError`, before any
later handler can mutate the buffer, so the payload captures the breadcrumb
sequence by value at dispatch time. -/
structure Payload where
  projectName : Option String
  projectVersion : Option String
  error : ErrorInfo
  breadcrumbs : List Breadcrumb
deriving DecidableEq, Repr

/-- `VueMonitor.reportError` (`src/monitor.ts` lines 167–210), dedup core and
dispatch: hash the error, sweep expired cache entries, return with no send if
the hash is cached inside the throttle window (`now - t < limit`, timestamp
not refreshed), otherwise cache `hash ↦ now` and dispatch a payload built
from the current breadcrumb buffer.  The returned `Option Payload` is the
body handed to `fetch` (`none` = suppressed, no network call). -/
def reportError (opts : MonitorOptions) (st : MonitorState) (e : ErrorInfo) (now : Int) :
    MonitorState × Option Payload :=
  match mapLookup (getErrorHash e) (sweepMap now opts.errorThrottleTime st.errorCache) with
  | some t =>
    if now - t < opts.errorThrottleTime then
      ({ st with errorCache := sweepMap now opts.errorThrottleTime st.errorCache }, none)
    else
      ({ st with errorCache :=
           mapSet (getErrorHash e) now (sweepMap now opts.errorThrottleTime st.errorCache) },
        some { projectName := opts.projectName, projectVersion := opts.projectVersion,
               error := e, breadcrumbs := st.breadcrumbs })
  | none =>
    ({ st with errorCache :=
         mapSet (getErrorHash e) now (sweepMap now opts.errorThrottleTime st.errorCache) },
      some { projectName := opts.projectName, projectVersion := opts.projectVersion,
             error := e, breadcrumbs := st.breadcrumbs })

/-- One externally-triggered entry into the monitor: a behavior/performance
breadcrumb record, or an error report at a given wall-clock time. -/
inductive MonitorEvent where
  | record (b : Breadcrumb)
  | report (e : ErrorInfo) (now : Int)
deriving DecidableEq, Repr

/-- One handler invocation (the browser is single-threaded, each handler runs
to completion before the next). -/
def stepMonitor (opts : MonitorOptions) (st : MonitorState) :
    MonitorEvent → MonitorState × Option Payload
  | .record b =>
    ({ st with breadcrumbs := addBreadcrumb opts.maxBreadcrumbs st.breadcrumbs b }, none)
  | .report e now => reportError opts st e now

/-- Run a sequence of handler invocations, collecting the dispatched
payloads in order. -/
def runMonitor (opts : MonitorOptions) (st : MonitorState) :
    List MonitorEvent → MonitorState × List Payload
  | [] => (st, [])
  | ev :: evs =>
    let r1 := stepMonitor opts st ev
    let r2 := runMonitor opts r1.1 evs
    (r2.1, (match r1.2 with | some pl => [pl] | none => []) ++ r2.2)

/-- The dedup fields of the unnamed legacy `monitor.ts` variant: the hash map
plus the insertion-ordered eviction queue `errorQueue`. -/
structure QDedupState where
  errorCache : List (String × Int)
  errorQueue : List (String × Int)
deriving DecidableEq, Repr

/-- The sweep loop of the legacy variant's `reportError` (unnamed part_000
lines 153–155): `while` the queue head is expired, `shift` it and delete its
hash from the map. -/
def sweepQueue (now limit : Int) :
    List (String × Int) → List (String × Int) → List (String × Int) × List (String × Int)
  | cache, [] => (cache, [])
  | cache, (h, t) :: rest =>
    if now - t > limit then sweepQueue now limit (mapDelete h cache) rest
    else (cache, (h, t) :: rest)

/-- The legacy variant's `reportError` dedup core (unnamed part_000 lines
137–176): sweep oldest-first, then suppress when
`errorCache.get(hash) && now - errorCache.get(hash) < limit` (note the JS
truthiness test on the cached number), else `set` and `push`.  Returns the
new state and whether the report was accepted. -/
def reportErrorQ (limit : Int) (st : QDedupState) (hash : String) (now : Int) :
    QDedupState × Bool :=
  match mapLookup hash (sweepQueue now limit st.errorCache st.errorQueue).1 with
  | some t =>
    if t ≠ 0 ∧ now - t < limit then
      (⟨(sweepQueue now limit st.errorCache st.errorQueue).1,
        (sweepQueue now limit st.errorCache st.errorQueue).2⟩, false)
    else
      (⟨mapSet hash now (sweepQueue now limit st.errorCache st.errorQueue).1,
        (sweepQueue now limit st.errorCache st.errorQueue).2 ++ [(hash, now)]⟩, true)
  | none =>
    (⟨mapSet hash now (sweepQueue now limit st.errorCache st.errorQueue).1,
      (sweepQueue now limit st.errorCache st.errorQueue).2 ++ [(hash, now)]⟩, true)

/-- Well-formedness of the legacy variant's dedup state, maintained by every
call: every map binding is present in the queue, and the queue is ordered by
(nondecreasing) insertion time. -/
def QWellFormed (st : QDedupState) : Prop :=
  (∀ p ∈ st.errorCache, p ∈ st.errorQueue) ∧
  st.errorQueue.Pairwise (fun a b => a.2 ≤ b.2)

instance (st : QDedupState) : Decidable (QWellFormed st) := by
  unfold QWellFormed
  infer_instance

/-- Outcome of `VueMonitorPlugin.install` (`src/index.ts` lines 4–33).
`configError` models the `console.error` + early `return` when `options` is
absent or `options.reportUrl` is falsy (empty): no monitor is constructed
and no listener is attached.  `noVueEnv` models the warning + early return
when neither Vue 2 nor Vue 3 is detected.  `installed` carries the
constructed monitor options and the listeners registered, in registration
order. -/
inductive InstallResult where
  | configError (msg : String)
  | noVueEnv (msg : String)
  | installed (opts : MonitorOptions) (listeners : List String)
deriving DecidableEq, Repr

/-- `VueMonitorPlugin.install` (`src/index.ts`): `!options || !options.reportUrl`
aborts with a configuration error before anything else; then the Vue-environment
check; then `new VueMonitor(options)` and `initGlobalError`, `initBehavior`,
`initPerformanceMonitor`, `initVue` in order. -/
def install (options : Option MonitorOptionsIn) (isVue3 isVue2 : Bool) : InstallResult :=
  match options with
  | none => .configError "请提供 reportUrl 选项"
  | some o =>
    if o.reportUrl = "" then .configError "请提供 reportUrl 选项"
    else if ¬isVue2 ∧ ¬isVue3 then .noVueEnv "[VueMonitor] 未检测到 Vue 环境，插件未生效"
    else
      .installed (constructOptions o)
        (["globalError", "behavior", "performance"] ++
          [if isVue3 then "vue3ErrorHandler" else "vue2ErrorHandler"])

/-- The `input` handler of `initBehavior` (`src/monitor.ts` lines 131–136):
the recorded `value` is `` `length:${v.length}` `` when
`filterInputAndScanData` is set, else the raw text `v`. -/
def inputBreadcrumbValue (filterInputAndScanData : Bool) (v : String) : String :=
  if filterInputAndScanData then "length:" ++ toString v.length else v

/-- The `compositionend` handler (`src/monitor.ts` lines 141–147): same
redaction as the `input` handler; records a `scan` breadcrumb. -/
def compositionEndBreadcrumbValue (filterInputAndScanData : Bool) (v : String) : String :=
  if filterInputAndScanData then "length:" ++ toString v.length else v

/-- The `keydown` handler (`src/monitor.ts` lines 150–157): records a `scan`
breadcrumb only when not composing and the key is Enter, with the same
redaction. -/
def scanKeydownBreadcrumbValue (filterInputAndScanData : Bool) (composing : Bool)
    (key : String) (v : String) : Option String :=
  if ¬composing ∧ key = "Enter" then
    some (if filterInputAndScanData then "length:" ++ toString v.length else v)
  else
    none

/-- State of `initFrameDropMonitor` (`src/monitor.ts` lines 266–303):
`lastFrameTime`, the pending `{frameTime, count}` record, and the
`lastTime` of the 100 ms `throttle` wrapper around `pushBreadcrumb`
(`src/utils.ts` lines 38–47; initially `0`).  The embedding uses a single
clock per tick: `performance.now()` inside `tick` and `Date.now()` inside
`throttle` are read at the same instant. -/
structure FrameState where
  lastFrameTime : Int
  pendingFrameDrop : Option (Int × Nat)
  throttleLastTime : Int
deriving DecidableEq, Repr

/-- A `frame-drop` breadcrumb emission: the time at which `pushBreadcrumb`
fired, and the serialized pending record (`frameTime`, `count`). -/
structure FrameEmit where
  time : Int
  frameTime : Int
  count : Nat
deriving DecidableEq, Repr

/-- Monitor start-up: `lastFrameTime = performance.now()`, no pending
record, throttle `lastTime = 0`. -/
def initFrameState (t0 : Int) : FrameState :=
  { lastFrameTime := t0, pendingFrameDrop := none, throttleLastTime := 0 }

/-- One `tick` of the frame-drop loop at time `now` with page visibility
`hidden`: compute `delta`, update `lastFrameTime`; if visible and
`delta > 50`, accumulate into the pending record (`count + 1`, `frameTime`
overwritten with the latest delta) and call the throttled `pushBreadcrumb`,
which fires only when `now - lastTime ≥ 100` (leading edge: `throttle` in
`src/utils.ts` runs the function immediately and never schedules a trailing
call), emitting the pending record and resetting it to `null`.  When hidden,
`lastFrameTime` is (re)set to the current time. -/
def frameTick (st : FrameState) (now : Int) (hidden : Bool) :
    FrameState × Option FrameEmit :=
  let delta := now - st.lastFrameTime
  let st1 : FrameState := { st with lastFrameTime := now }
  if hidden then
    (st1, none)
  else if 50 < delta then
    let p : Int × Nat :=
      match st1.pendingFrameDrop with
      | some q => (delta, q.2 + 1)
      | none => (delta, 1)
    if 100 ≤ now - st1.throttleLastTime then
      ({ st1 with pendingFrameDrop := none, throttleLastTime := now },
        some { time := now, frameTime := p.1, count := p.2 })
    else
      ({ st1 with pendingFrameDrop := some p }, none)
  else
    (st1, none)

/-- Run a sequence of animation-frame ticks `(now, hidden)`, collecting the
emitted `frame-drop` breadcrumbs in order. -/
def runFrames (st : FrameState) : List (Int × Bool) → FrameState × List FrameEmit
  | [] => (st, [])
  | (now, hid) :: ticks =>
    let r1 := frameTick st now hid
    let r2 := runFrames r1.1 ticks
    (r2.1, (match r1.2 with | some em => [em] | none => []) ++ r2.2)

/-- Count of qualifying drop ticks in a run: ticks that are visible and
whose delta since the previous tick exceeds 50 ms. -/
def dropCount (st : FrameState) : List (Int × Bool) → Nat
  | [] => 0
  | (now, hid) :: ticks =>
    (if hid then 0 else if 50 < now - st.lastFrameTime then 1 else 0) +
      dropCount (frameTick st now hid).1 ticks

/-- The count held by the pending record (0 when none). -/
def pendingCount (st : FrameState) : Nat :=
  match st.pendingFrameDrop with
  | some p => p.2
  | none => 0

/-- Total drop count over a list of emissions. -/
def emitTotal (ems : List FrameEmit) : Nat :=
  (ems.map FrameEmit.count).sum

/-- Drop count carried by one optional emission. -/
def emCount : Option FrameEmit → Nat
  | some em => em.count
  | none => 0

/-- Sample breadcrumbs for concrete scenarios. -/
def sampleCrumb (n : Nat) : Breadcrumb :=
  { type := "click", target := some ("b" ++ toString n), value := none, timestamp := "t" }

/-- Sample resolved options (throttle window 1000 ms). -/
def sampleOpts : MonitorOptions :=
  { reportUrl := "https://collector.example/report"
    projectName := none
    projectVersion := none
    maxBreadcrumbs := 3
    errorThrottleTime := 1000
    filterInputAndScanData := true }

/-- Sample error. -/
def sampleErr : ErrorInfo :=
  { message := "boom", stack := some "trace", errInfo := none
    url := "https://app.example/page", timestamp := "2026-01-01 00:00:00" }

/-- Two distinct errors whose hashes collide (the separator `-` is ambiguous
between the message and the stack). -/
def collideErrA : ErrorInfo := ⟨"a-b", some "c", none, "u", "t"⟩

/-- See `collideErrA`. -/
def collideErrB : ErrorInfo := ⟨"a", some "b-c", none, "u", "t"⟩

/-- The payload dispatched for `sampleErr` from the empty state. -/
def samplePayload : Payload :=
  { projectName := none, projectVersion := none, error := sampleErr, breadcrumbs := [] }

/-- One `addBreadcrumb` call keeps the buffer equal to the suffix of the
whole recorded history of length at most `N`. -/
theorem addBreadcrumb_eq_drop (N : Nat) (hN : N ≠ 0) (buf : List Breadcrumb)
    (b : Breadcrumb) (hlen : buf.length ≤ N) :
    addBreadcrumb N buf b = (buf ++ [b]).drop ((buf ++ [b]).length - N) := by
  unfold addBreadcrumb
  simp only [if_neg hN, List.length_append, List.length_cons, List.length_nil]
  by_cases hc : N < buf.length + 1
  · have hbn : buf.length = N := le_antisymm hlen (by omega)
    have h1 : buf.length + (0 + 1) - N = 1 := by omega
    rw [if_pos (by omega), h1, List.drop_one]
  · have h0 : buf.length + (0 + 1) - N = 0 := by omega
    rw [if_neg (by omega), h0, List.drop_zero]

/-- Auxiliary: the buffer after `recordAll` starting from any admissible
buffer is the `N`-bounded suffix of the concatenated history. -/
theorem recordAll_eq_drop (N : Nat) (hN : N ≠ 0) :
    ∀ (bs buf : List Breadcrumb), buf.length ≤ N →
      recordAll N buf bs = (buf ++ bs).drop ((buf ++ bs).length - N) := by
  intro bs
  induction bs with
  | nil =>
    intro buf hlen
    simp [recordAll, Nat.sub_eq_zero_of_le hlen]
  | cons b rest ih =>
    intro buf hlen
    have hstep : recordAll N buf (b :: rest) = recordAll N (addBreadcrumb N buf b) rest := by
      simp [recordAll]
    rw [hstep]
    have hblen : (addBreadcrumb N buf b).length ≤ N := by
      rw [addBreadcrumb_eq_drop N hN buf b hlen]
      simp only [List.length_drop, List.length_append, List.length_cons, List.length_nil]
      omega
    rw [ih (addBreadcrumb N buf b) hblen]
    rw [addBreadcrumb_eq_drop N hN buf b hlen]
    by_cases hc : buf.length + 1 ≤ N
    · have h0 : (buf ++ [b]).length - N = 0 := by
        simp only [List.length_append, List.length_cons, List.length_nil]
        omega
      rw [h0, List.drop_zero]
      have : (buf ++ [b]) ++ rest = buf ++ b :: rest := by simp
      rw [this]
    · -- buffer full: buf.length = N, one element was shifted
      have hbn : buf.length = N := le_antisymm hlen (by omega)
      cases buf with
      | nil => exact absurd hbn.symm hN
      | cons x xs =>
        have h1 : ((x :: xs) ++ [b]).length - N = 1 := by
          simp only [List.length_append, List.length_cons, List.length_nil]
          simp only [List.length_cons] at hbn
          omega
        rw [h1, List.drop_one]
        have htail : ((x :: xs) ++ [b]).tail = xs ++ [b] := by simp
        rw [htail]
        have hL : ((xs ++ [b]) ++ rest) = xs ++ b :: rest := by simp
        rw [hL]
        have hR : ((x :: xs) ++ b :: rest) = x :: (xs ++ b :: rest) := by simp
        rw [hR]
        simp only [List.length_append, List.length_cons] at hbn ⊢
        have ha1 : xs.length + (rest.length + 1) - N = rest.length := by omega
        have ha2 : xs.length + (rest.length + 1) + 1 - N = rest.length + 1 := by omega
        rw [ha1, ha2]
        rfl

/-- C1: for every configuration whose (constructor-resolved) `maxBreadcrumbs`
is `N` (the constructor guarantees `N ≠ 0`), after any finite sequence of
`addBreadcrumb` calls starting from the empty buffer, the buffer equals the
most recent `min(N, totalRecorded)` recorded breadcrumbs in original record
order, and its length never exceeds `N`; since the recorded sequence is
universally quantified, this holds after each individual call.  Concretely,
`N = 3` with `b1..b5` leaves `[b3, b4, b5]` (see the witness). -/
theorem breadcrumb_buffer_bounded_fifo (N : Nat) (hN : N ≠ 0) (bs : List Breadcrumb) :
    recordAll N [] bs = bs.drop (bs.length - N) ∧
    (recordAll N [] bs).length = min N bs.length ∧
    (recordAll N [] bs).length ≤ N := by
  have h := recordAll_eq_drop N hN bs [] (by simp)
  simp only [List.nil_append] at h
  refine ⟨h, ?_, ?_⟩
  · rw [h]
    simp only [List.length_drop]
    omega
  · rw [h]
    simp only [List.length_drop]
    omega

theorem mapLookup_mem {h : String} {t : Int} :
    ∀ {c : List (String × Int)}, mapLookup h c = some t → (h, t) ∈ c := by
  intro c
  induction c with
  | nil => intro hx; exact absurd hx (by simp [mapLookup])
  | cons p rest ih =>
    obtain ⟨k, v⟩ := p
    intro hx
    by_cases hk : k = h
    · simp only [mapLookup, if_pos hk] at hx
      subst hk
      obtain rfl : v = t := by injection hx
      exact List.mem_cons_self _ _
    · simp only [mapLookup, if_neg hk] at hx
      exact List.mem_cons_of_mem _ (ih hx)

theorem mapLookup_eq_none_of_no_key {h : String} :
    ∀ {c : List (String × Int)}, (∀ p ∈ c, p.1 ≠ h) → mapLookup h c = none := by
  intro c
  induction c with
  | nil => intro _; rfl
  | cons p rest ih =>
    obtain ⟨k, v⟩ := p
    intro hall
    have hk : k ≠ h := hall (k, v) (List.mem_cons_self _ _)
    simp only [mapLookup, if_neg hk]
    exact ih fun q hq => hall q (List.mem_cons_of_mem _ hq)

theorem no_key_of_mapLookup_eq_none {h : String} :
    ∀ {c : List (String × Int)}, mapLookup h c = none → ∀ p ∈ c, p.1 ≠ h := by
  intro c
  induction c with
  | nil => intro _ p hp; exact absurd hp (by simp)
  | cons q rest ih =>
    obtain ⟨k, v⟩ := q
    intro hx p hp
    by_cases hk : k = h
    · simp [mapLookup, if_pos hk] at hx
    · simp only [mapLookup, if_neg hk] at hx
      rcases List.mem_cons.mp hp with hh | hh
      · subst hh; exact hk
      · exact ih hx p hh

theorem mapLookup_filter {p : String × Int → Bool} {h : String} {t : Int} :
    ∀ {c : List (String × Int)}, mapLookup h c = some t → p (h, t) = true →
      mapLookup h (c.filter p) = some t := by
  intro c
  induction c with
  | nil => intro hx; exact absurd hx (by simp [mapLookup])
  | cons q rest ih =>
    obtain ⟨k, v⟩ := q
    intro hx hp
    by_cases hk : k = h
    · simp only [mapLookup, if_pos hk] at hx
      subst hk
      obtain rfl : v = t := by injection hx
      rw [List.filter_cons_of_pos hp]
      simp [mapLookup]
    · simp only [mapLookup, if_neg hk] at hx
      by_cases hkeep : p (k, v) = true
      · rw [List.filter_cons_of_pos hkeep]
        simp only [mapLookup, if_neg hk]
        exact ih hx hp
      · rw [List.filter_cons_of_neg (by simpa using hkeep)]
        exact ih hx hp

theorem mapLookup_append_none {h : String} {l : List (String × Int)} :
    ∀ {c : List (String × Int)}, mapLookup h c = none →
      mapLookup h (c ++ l) = mapLookup h l := by
  intro c
  induction c with
  | nil => intro _; rfl
  | cons q rest ih =>
    obtain ⟨k, v⟩ := q
    intro hx
    by_cases hk : k = h
    · simp [mapLookup, if_pos hk] at hx
    · simp only [mapLookup, if_neg hk] at hx
      simp only [List.cons_append, mapLookup, if_neg hk]
      exact ih hx

theorem mapLookup_map_upd {h : String} {v : Int} :
    ∀ {c : List (String × Int)}, (mapLookup h c).isSome = true →
      mapLookup h (c.map (fun p => if p.1 = h then (h, v) else p)) = some v := by
  intro c
  induction c with
  | nil => intro hx; simp [mapLookup] at hx
  | cons q rest ih =>
    obtain ⟨k, w⟩ := q
    intro hx
    by_cases hk : k = h
    · simp only [List.map_cons, if_pos hk]
      simp [mapLookup]
    · simp only [mapLookup, if_neg hk] at hx
      simp only [List.map_cons, if_neg hk]
      simp only [mapLookup, if_neg hk]
      exact ih hx

theorem mapLookup_mapSet_self (h : String) (v : Int) (c : List (String × Int)) :
    mapLookup h (mapSet h v c) = some v := by
  unfold mapSet
  by_cases hs : (mapLookup h c).isSome = true
  · rw [if_pos hs]
    exact mapLookup_map_upd hs
  · have hnone : mapLookup h c = none := by
      cases hl : mapLookup h c
      · rfl
      · exact absurd (by simp [hl]) hs
    rw [if_neg hs, mapLookup_append_none hnone]
    simp [mapLookup]

theorem mapSet_key_val {h : String} {v : Int} {c : List (String × Int)} :
    ∀ p ∈ mapSet h v c, p.1 = h → p.2 = v := by
  intro p hp hkey
  unfold mapSet at hp
  by_cases hs : (mapLookup h c).isSome = true
  · rw [if_pos hs] at hp
    obtain ⟨q, _, hq⟩ := List.mem_map.mp hp
    by_cases hqk : q.1 = h
    · rw [if_pos hqk] at hq
      rw [← hq]
    · rw [if_neg hqk] at hq
      exact absurd (hq ▸ hkey) hqk
  · rw [if_neg hs] at hp
    have hnone : mapLookup h c = none := by
      cases hl : mapLookup h c
      · rfl
      · exact absurd (by simp [hl]) hs
    rcases List.mem_append.mp hp with hh | hh
    · exact absurd hkey (no_key_of_mapLookup_eq_none hnone p hh)
    · rcases List.mem_singleton.mp hh with rfl
      rfl

theorem mapSet_mem {h : String} {v : Int} {c : List (String × Int)} :
    ∀ p ∈ mapSet h v c, p = (h, v) ∨ p ∈ c := by
  intro p hp
  unfold mapSet at hp
  by_cases hs : (mapLookup h c).isSome = true
  · rw [if_pos hs] at hp
    obtain ⟨q, hqmem, hq⟩ := List.mem_map.mp hp
    by_cases hqk : q.1 = h
    · rw [if_pos hqk] at hq
      exact Or.inl hq.symm
    · rw [if_neg hqk] at hq
      exact Or.inr (hq ▸ hqmem)
  · rw [if_neg hs] at hp
    rcases List.mem_append.mp hp with hh | hh
    · exact Or.inr hh
    · exact Or.inl (List.mem_singleton.mp hh)

/-- The suppressed branch of `reportError`: cached hash inside the window. -/
theorem reportError_eq_suppressed {opts : MonitorOptions} {st : MonitorState}
    {e : ErrorInfo} {now t : Int}
    (hl : mapLookup (getErrorHash e) (sweepMap now opts.errorThrottleTime st.errorCache)
      = some t)
    (hlt : now - t < opts.errorThrottleTime) :
    reportError opts st e now =
      ({ st with errorCache := sweepMap now opts.errorThrottleTime st.errorCache }, none) := by
  unfold reportError
  simp only [hl]
  rw [if_pos hlt]

/-- The accepted branch of `reportError` when the hash is not cached. -/
theorem reportError_eq_accepted_none {opts : MonitorOptions} {st : MonitorState}
    {e : ErrorInfo} {now : Int}
    (hl : mapLookup (getErrorHash e) (sweepMap now opts.errorThrottleTime st.errorCache)
      = none) :
    reportError opts st e now =
      ({ st with errorCache :=
           mapSet (getErrorHash e) now (sweepMap now opts.errorThrottleTime st.errorCache) },
        some { projectName := opts.projectName, projectVersion := opts.projectVersion,
               error := e, breadcrumbs := st.breadcrumbs }) := by
  unfold reportError
  simp only [hl]

/-- The accepted branch of `reportError` when the cached entry sits at or
past the window boundary. -/
theorem reportError_eq_accepted_expired {opts : MonitorOptions} {st : MonitorState}
    {e : ErrorInfo} {now t : Int}
    (hl : mapLookup (getErrorHash e) (sweepMap now opts.errorThrottleTime st.errorCache)
      = some t)
    (hge : ¬ now - t < opts.errorThrottleTime) :
    reportError opts st e now =
      ({ st with errorCache :=
           mapSet (getErrorHash e) now (sweepMap now opts.errorThrottleTime st.errorCache) },
        some { projectName := opts.projectName, projectVersion := opts.projectVersion,
               error := e, breadcrumbs := st.breadcrumbs }) := by
  unfold reportError
  simp only [hl]
  rw [if_neg hge]

/-- An accepted `reportError` call leaves `hash ↦ now` in the cache. -/
theorem reportError_cache_of_accepted {opts : MonitorOptions} {st : MonitorState}
    {e : ErrorInfo} {now : Int}
    (hacc : ((reportError opts st e now).2).isSome = true) :
    ((reportError opts st e now).1).errorCache =
      mapSet (getErrorHash e) now (sweepMap now opts.errorThrottleTime st.errorCache) := by
  cases hl : mapLookup (getErrorHash e) (sweepMap now opts.errorThrottleTime st.errorCache) with
  | none => rw [reportError_eq_accepted_none hl]
  | some t =>
    by_cases hsup : now - t < opts.errorThrottleTime
    · rw [reportError_eq_suppressed hl hsup] at hacc
      simp at hacc
    · rw [reportError_eq_accepted_expired hl hsup]

/-- C2: for a fixed error `e` with throttle window `W = errorThrottleTime`:
once `e` is accepted at `t0`, a report at `t1` with `t1 - t0 < W` is
suppressed (no payload) and leaves `e`'s cached timestamp at `t0`, while a
report at `t2` with `t2 - t0 ≥ W` — including the exact boundary
`t2 - t0 = W`, since suppression uses strict `<` — is accepted again. -/
theorem reportError_throttle_window (opts : MonitorOptions) (st : MonitorState)
    (e : ErrorInfo) (t0 t1 t2 : Int)
    (hacc : ((reportError opts st e t0).2).isSome = true)
    (h1 : t1 - t0 < opts.errorThrottleTime)
    (h2 : opts.errorThrottleTime ≤ t2 - t0) :
    (reportError opts (reportError opts st e t0).1 e t1).2 = none ∧
    mapLookup (getErrorHash e)
      ((reportError opts (reportError opts st e t0).1 e t1).1).errorCache = some t0 ∧
    ((reportError opts (reportError opts (reportError opts st e t0).1 e t1).1 e t2).2).isSome
      = true := by
  have hcache0 := reportError_cache_of_accepted hacc
  set st0 := (reportError opts st e t0).1 with hst0
  have hlook0 : mapLookup (getErrorHash e) st0.errorCache = some t0 := by
    rw [hcache0]; exact mapLookup_mapSet_self _ _ _
  -- the t1 call: the entry survives the sweep and triggers suppression
  have hlook1 : mapLookup (getErrorHash e)
      (sweepMap t1 opts.errorThrottleTime st0.errorCache) = some t0 := by
    unfold sweepMap
    exact mapLookup_filter hlook0 (by simp only [decide_eq_true_eq]; omega)
  have hr1 := reportError_eq_suppressed hlook1 h1
  refine ⟨by rw [hr1], by rw [hr1]; exact hlook1, ?_⟩
  rw [hr1]
  dsimp only
  -- the t2 call: accepted whether the entry expired (`>` W) or sits at the boundary (`= W`)
  by_cases hgt : opts.errorThrottleTime < t2 - t0
  · have hnone2 : mapLookup (getErrorHash e)
        (sweepMap t2 opts.errorThrottleTime
          (sweepMap t1 opts.errorThrottleTime st0.errorCache)) = none := by
      cases hl2 : mapLookup (getErrorHash e)
          (sweepMap t2 opts.errorThrottleTime
            (sweepMap t1 opts.errorThrottleTime st0.errorCache)) with
      | none => rfl
      | some t' =>
        exfalso
        have hmem2 := mapLookup_mem hl2
        have hmem2' := List.mem_filter.mp hmem2
        have hmem1' := List.mem_filter.mp hmem2'.1
        have hval : t' = t0 := by
          have hm : (getErrorHash e, t') ∈
              mapSet (getErrorHash e) t0 (sweepMap t0 opts.errorThrottleTime st.errorCache) := by
            rw [← hcache0]; exact hmem1'.1
          simpa using mapSet_key_val (getErrorHash e, t') hm rfl
        have hle : t2 - t' ≤ opts.errorThrottleTime := by simpa using hmem2'.2
        omega
    rw [reportError_eq_accepted_none hnone2]
    rfl
  · have hlook2 : mapLookup (getErrorHash e)
        (sweepMap t2 opts.errorThrottleTime
          (sweepMap t1 opts.errorThrottleTime st0.errorCache)) = some t0 := by
      unfold sweepMap
      unfold sweepMap at hlook1
      exact mapLookup_filter hlook1 (by simp only [decide_eq_true_eq]; omega)
    rw [reportError_eq_accepted_expired hlook2 (by omega)]
    rfl

/-- Witness for C2: `W = 1000`; the error is accepted at `t = 0`,
suppressed at `t = 500`, accepted at `t = 1500`. -/
theorem reportError_throttle_window_witness :
    (((reportError sampleOpts ⟨[], []⟩ sampleErr 0).2).isSome = true ∧
      (500 : Int) - 0 < sampleOpts.errorThrottleTime ∧
      sampleOpts.errorThrottleTime ≤ (1500 : Int) - 0) ∧
    ((reportError sampleOpts (reportError sampleOpts ⟨[], []⟩ sampleErr 0).1 sampleErr 500).2
        = none ∧
      mapLookup (getErrorHash sampleErr)
        ((reportError sampleOpts (reportError sampleOpts ⟨[], []⟩ sampleErr 0).1
          sampleErr 500).1).errorCache = some 0 ∧
      ((reportError sampleOpts
          (reportError sampleOpts (reportError sampleOpts ⟨[], []⟩ sampleErr 0).1
            sampleErr 500).1 sampleErr 1500).2).isSome = true) :=
  ⟨⟨by decide, by decide, by decide⟩,
    reportError_throttle_window sampleOpts ⟨[], []⟩ sampleErr 0 500 1500
      (by decide) (by decide) (by decide)⟩

/-- C10: the hash `message ++ "-" ++ stack ++ "-" ++ url` is not injective —
`("a-b", "c", "u")` and `("a", "b-c", "u")` are distinct triples with equal
hashes — so an error can be suppressed by a different, earlier error inside
the throttle window; and an absent stack is hashed as the literal string
`undefined`. -/
theorem getErrorHash_not_injective :
    getErrorHash collideErrA = getErrorHash collideErrB ∧
    (collideErrA.message, collideErrA.stack, collideErrA.url) ≠
      (collideErrB.message, collideErrB.stack, collideErrB.url) ∧
    (∀ m i u ts, getErrorHash ⟨m, none, i, u, ts⟩ = m ++ "-" ++ "undefined" ++ "-" ++ u) ∧
    ((reportError sampleOpts ⟨[], []⟩ collideErrA 0).2).isSome = true ∧
    (reportError sampleOpts (reportError sampleOpts ⟨[], []⟩ collideErrA 0).1
        collideErrB 500).2 = none :=
  ⟨rfl, by decide, fun m i u ts => rfl, by decide, by decide⟩

/-- Witness for C1: with `maxBreadcrumbs = 3`, recording `b1..b5` in order
leaves the buffer equal to `[b3, b4, b5]`. -/
theorem breadcrumb_buffer_bounded_fifo_witness :
    (3 : Nat) ≠ 0 ∧
    recordAll 3 [] [sampleCrumb 1, sampleCrumb 2, sampleCrumb 3, sampleCrumb 4, sampleCrumb 5] =
      [sampleCrumb 3, sampleCrumb 4, sampleCrumb 5] := by
  refine ⟨by decide, ?_⟩
  have h := (breadcrumb_buffer_bounded_fifo 3 (by decide)
    [sampleCrumb 1, sampleCrumb 2, sampleCrumb 3, sampleCrumb 4, sampleCrumb 5]).1
  rw [h]
  rfl

theorem sweepQueue_cache_sub (now limit : Int) :
    ∀ (q c : List (String × Int)), (∀ p ∈ c, p ∈ q) →
      ∀ p ∈ (sweepQueue now limit c q).1, p ∈ (sweepQueue now limit c q).2 := by
  intro q
  induction q with
  | nil =>
    intro c hsub p hp
    simp only [sweepQueue] at hp ⊢
    exact hsub p hp
  | cons hd rest ih =>
    obtain ⟨h, t⟩ := hd
    intro c hsub p hp
    by_cases hexp : now - t > limit
    · simp only [sweepQueue, if_pos hexp] at hp ⊢
      refine ih (mapDelete h c) ?_ p hp
      intro q hq
      have hq' := List.mem_filter.mp hq
      have hne : q.1 ≠ h := by simpa using hq'.2
      rcases List.mem_cons.mp (hsub q hq'.1) with hh | hh
      · exact absurd (by rw [hh]) hne
      · exact hh
    · simp only [sweepQueue, if_neg hexp] at hp ⊢
      exact hsub p hp

theorem sweepQueue_queue_sub (now limit : Int) :
    ∀ (q c : List (String × Int)), ∀ p ∈ (sweepQueue now limit c q).2, p ∈ q := by
  intro q
  induction q with
  | nil =>
    intro c p hp
    simp [sweepQueue] at hp
  | cons hd rest ih =>
    obtain ⟨h, t⟩ := hd
    intro c p hp
    by_cases hexp : now - t > limit
    · simp only [sweepQueue, if_pos hexp] at hp
      exact List.mem_cons_of_mem _ (ih (mapDelete h c) p hp)
    · simp only [sweepQueue, if_neg hexp] at hp
      exact hp

theorem sweepQueue_queue_pairwise (now limit : Int) :
    ∀ (q c : List (String × Int)), q.Pairwise (fun a b => a.2 ≤ b.2) →
      (sweepQueue now limit c q).2.Pairwise (fun a b => a.2 ≤ b.2) := by
  intro q
  induction q with
  | nil =>
    intro c _
    simp [sweepQueue]
  | cons hd rest ih =>
    obtain ⟨h, t⟩ := hd
    intro c hpw
    by_cases hexp : now - t > limit
    · simp only [sweepQueue, if_pos hexp]
      exact ih (mapDelete h c) (List.Pairwise.of_cons hpw)
    · simp only [sweepQueue, if_neg hexp]
      exact hpw

theorem sweepQueue_queue_fresh (now limit : Int) :
    ∀ (q c : List (String × Int)), q.Pairwise (fun a b => a.2 ≤ b.2) →
      ∀ p ∈ (sweepQueue now limit c q).2, now - p.2 ≤ limit := by
  intro q
  induction q with
  | nil =>
    intro c _ p hp
    simp [sweepQueue] at hp
  | cons hd rest ih =>
    obtain ⟨h, t⟩ := hd
    intro c hpw p hp
    obtain ⟨hhead, hrest⟩ := List.pairwise_cons.mp hpw
    by_cases hexp : now - t > limit
    · simp only [sweepQueue, if_pos hexp] at hp
      exact ih (mapDelete h c) hrest p hp
    · simp only [sweepQueue, if_neg hexp] at hp
      rcases List.mem_cons.mp hp with hh | hh
      · rw [hh]; omega
      · have := hhead p hh
        simp only at this
        omega

/-- `reportErrorQ` either suppresses (state is the swept state) or accepts
(sets the hash in the map and appends it to the queue). -/
theorem reportErrorQ_shape (limit : Int) (st : QDedupState) (hash : String) (now : Int) :
    (reportErrorQ limit st hash now).1 =
      ⟨(sweepQueue now limit st.errorCache st.errorQueue).1,
        (sweepQueue now limit st.errorCache st.errorQueue).2⟩ ∨
    (reportErrorQ limit st hash now).1 =
      ⟨mapSet hash now (sweepQueue now limit st.errorCache st.errorQueue).1,
        (sweepQueue now limit st.errorCache st.errorQueue).2 ++ [(hash, now)]⟩ := by
  unfold reportErrorQ
  cases mapLookup hash (sweepQueue now limit st.errorCache st.errorQueue).1 with
  | none => exact Or.inr rfl
  | some t =>
    dsimp only
    by_cases hc : t ≠ 0 ∧ now - t < limit
    · rw [if_pos hc]
      exact Or.inl rfl
    · rw [if_neg hc]
      exact Or.inr rfl

/-- C4: after every completed `reportError` call at time `now`, the dedup
cache holds no entry older than the throttle window.  Part one: the
`src/monitor.ts` variant sweeps the whole map before the duplicate check, so
the property holds after a single call from any prior state.  Part two: the
legacy ordered-queue variant sweeps expired entries oldest-first from both
the queue and the map; from any well-formed state (map ⊆ queue, queue in
insertion-time order) whose entries are not in the future, the call
establishes the property and preserves well-formedness, so it holds after
every call of any monotonically-timed run. -/
theorem dedup_sweep_invariant (now limit : Int) (hlim : 0 ≤ limit) :
    (∀ (opts : MonitorOptions) (st : MonitorState) (e : ErrorInfo),
        opts.errorThrottleTime = limit →
        ∀ p ∈ ((reportError opts st e now).1).errorCache, now - p.2 ≤ limit) ∧
    (∀ (st : QDedupState) (hash : String), QWellFormed st →
        (∀ p ∈ st.errorQueue, p.2 ≤ now) →
        (∀ p ∈ ((reportErrorQ limit st hash now).1).errorCache, now - p.2 ≤ limit) ∧
        QWellFormed (reportErrorQ limit st hash now).1 ∧
        (∀ p ∈ ((reportErrorQ limit st hash now).1).errorQueue, p.2 ≤ now)) := by
  constructor
  · -- map-sweep variant
    intro opts st e hW p hp
    have hsw : ∀ q ∈ sweepMap now opts.errorThrottleTime st.errorCache,
        now - q.2 ≤ limit := by
      intro q hq
      have := (List.mem_filter.mp hq).2
      rw [hW] at this
      simpa using this
    cases hl : mapLookup (getErrorHash e)
        (sweepMap now opts.errorThrottleTime st.errorCache) with
    | none =>
      rw [reportError_eq_accepted_none hl] at hp
      rcases mapSet_mem p hp with hh | hh
      · rw [hh]; simpa using hlim
      · exact hsw p hh
    | some t =>
      by_cases hsup : now - t < opts.errorThrottleTime
      · rw [reportError_eq_suppressed hl hsup] at hp
        exact hsw p hp
      · rw [reportError_eq_accepted_expired hl hsup] at hp
        rcases mapSet_mem p hp with hh | hh
        · rw [hh]; simpa using hlim
        · exact hsw p hh
  · -- ordered-queue variant
    intro st hash hwf htimes
    have f1 := sweepQueue_cache_sub now limit st.errorQueue st.errorCache hwf.1
    have f2 := sweepQueue_queue_pairwise now limit st.errorQueue st.errorCache hwf.2
    have f3 := sweepQueue_queue_fresh now limit st.errorQueue st.errorCache hwf.2
    have f5 : ∀ p ∈ (sweepQueue now limit st.errorCache st.errorQueue).2, p.2 ≤ now :=
      fun p hp => htimes p (sweepQueue_queue_sub now limit st.errorQueue st.errorCache p hp)
    rcases reportErrorQ_shape limit st hash now with hsh | hsh
    · rw [hsh]
      refine ⟨fun p hp => f3 p (f1 p hp), ⟨f1, f2⟩, f5⟩
    · rw [hsh]
      refine ⟨?_, ⟨?_, ?_⟩, ?_⟩
      · intro p hp
        rcases mapSet_mem p hp with hh | hh
        · rw [hh]; simpa using hlim
        · exact f3 p (f1 p hh)
      · intro p hp
        rcases mapSet_mem p hp with hh | hh
        · rw [hh]
          exact List.mem_append_right _ (List.mem_singleton.mpr rfl)
        · exact List.mem_append_left _ (f1 p hh)
      · rw [List.pairwise_append]
        refine ⟨f2, by simp, ?_⟩
        intro a ha b hb
        rcases List.mem_singleton.mp hb with rfl
        simpa using f5 a ha
      · intro p hp
        rcases List.mem_append.mp hp with hh | hh
        · exact f5 p hh
        · rcases List.mem_singleton.mp hh with rfl
          exact le_refl now

/-- Witness for C4: at `now = 2000` with window `1000`, a call on a state
holding an expired entry `("old", 0)` leaves no entry older than the window
in either variant, and preserves well-formedness of the queue variant. -/
theorem dedup_sweep_invariant_witness :
    ((0 : Int) ≤ 1000 ∧ sampleOpts.errorThrottleTime = 1000 ∧
      QWellFormed ⟨[("old", 0)], [("old", 0)]⟩ ∧
      (∀ p ∈ ([("old", 0)] : List (String × Int)), p.2 ≤ (2000 : Int))) ∧
    (∀ p ∈ ((reportError sampleOpts ⟨[], [("old", 0)]⟩ sampleErr 2000).1).errorCache,
      (2000 : Int) - p.2 ≤ 1000) ∧
    (∀ p ∈ ((reportErrorQ 1000 ⟨[("old", 0)], [("old", 0)]⟩ "h" 2000).1).errorCache,
      (2000 : Int) - p.2 ≤ 1000) ∧
    QWellFormed (reportErrorQ 1000 ⟨[("old", 0)], [("old", 0)]⟩ "h" 2000).1 :=
  ⟨⟨by decide, by decide, by decide, by decide⟩,
    (dedup_sweep_invariant 2000 1000 (by decide)).1 sampleOpts ⟨[], [("old", 0)]⟩
      sampleErr (by decide),
    ((dedup_sweep_invariant 2000 1000 (by decide)).2 ⟨[("old", 0)], [("old", 0)]⟩ "h"
      (by decide) (by decide)).1,
    ((dedup_sweep_invariant 2000 1000 (by decide)).2 ⟨[("old", 0)], [("old", 0)]⟩ "h"
      (by decide) (by decide)).2.1⟩

/-- C6 counterexample: with explicitly supplied `maxBreadcrumbs = 0` and
`errorThrottleTime = 0`, the constructor does not retain the supplied
values — `||=` treats `0` as unset and installs the defaults 30 and 60000 —
refuting the claim that every explicitly supplied value is retained. -/
theorem constructor_zero_not_retained :
    ¬ (constructOptions ⟨"u", none, none, some 0, some 0, some false⟩).maxBreadcrumbs = 0 ∧
    ¬ (constructOptions ⟨"u", none, none, some 0, some 0, some false⟩).errorThrottleTime = 0 ∧
    (constructOptions ⟨"u", none, none, some 0, some 0, some false⟩).maxBreadcrumbs = 30 ∧
    (constructOptions ⟨"u", none, none, some 0, some 0, some false⟩).errorThrottleTime = 60000 := by
  decide

/-- C6 amended: the constructor fills defaults for absent fields; a supplied
*nonzero* `maxBreadcrumbs` or `errorThrottleTime` is retained, but a
supplied `0` is replaced by the default (30 resp. 60000) because `||=`
treats any falsy number as unset; a supplied `filterInputAndScanData`
(including `false`) is always retained because `??=` fills only
`undefined`/`null`; `reportUrl` is passed through unchanged. -/
theorem constructor_defaults_amended (o : MonitorOptionsIn) :
    (∀ n, o.maxBreadcrumbs = some n → n ≠ 0 → (constructOptions o).maxBreadcrumbs = n) ∧
    (o.maxBreadcrumbs = none ∨ o.maxBreadcrumbs = some 0 →
      (constructOptions o).maxBreadcrumbs = 30) ∧
    (∀ n, o.errorThrottleTime = some n → n ≠ 0 → (constructOptions o).errorThrottleTime = n) ∧
    (o.errorThrottleTime = none ∨ o.errorThrottleTime = some 0 →
      (constructOptions o).errorThrottleTime = 60000) ∧
    (∀ b, o.filterInputAndScanData = some b →
      (constructOptions o).filterInputAndScanData = b) ∧
    (o.filterInputAndScanData = none → (constructOptions o).filterInputAndScanData = true) ∧
    (constructOptions o).reportUrl = o.reportUrl := by
  refine ⟨?_, ?_, ?_, ?_, ?_, ?_, rfl⟩
  · intro n hn hnz
    simp [constructOptions, jsOrNat, hn, hnz]
  · intro h
    rcases h with h | h <;> simp [constructOptions, jsOrNat, h]
  · intro n hn hnz
    simp [constructOptions, jsOrInt, hn, hnz]
  · intro h
    rcases h with h | h <;> simp [constructOptions, jsOrInt, h]
  · intro b hb
    simp [constructOptions, hb]
  · intro h
    simp [constructOptions, h]

/-- Witness for the amended C6: nonzero numbers and an explicit `false` are
retained; absent fields get the defaults. -/
theorem constructor_defaults_amended_witness :
    ((some 7 : Option Nat) = some 7 ∧ (7 : Nat) ≠ 0) ∧
    (constructOptions ⟨"u", none, none, some 7, some 5000, some false⟩).maxBreadcrumbs = 7 ∧
    (constructOptions ⟨"u", none, none, none, none, none⟩).errorThrottleTime = 60000 ∧
    (constructOptions ⟨"u", none, none, some 7, some 5000, some false⟩).filterInputAndScanData
      = false :=
  ⟨⟨rfl, by decide⟩,
    (constructor_defaults_amended ⟨"u", none, none, some 7, some 5000, some false⟩).1
      7 rfl (by decide),
    (constructor_defaults_amended ⟨"u", none, none, none, none, none⟩).2.2.2.1 (Or.inl rfl),
    (constructor_defaults_amended ⟨"u", none, none, some 7, some 5000, some false⟩).2.2.2.2.1
      false rfl⟩

/-- C7: installing with a missing (or empty, the JS falsy case) `reportUrl`
fails with the configuration error before anything is set up: the result is
the `configError` outcome, so no monitor is constructed and no
global-error, behavior, or performance listener is registered. -/
theorem install_missing_reportUrl (options : Option MonitorOptionsIn)
    (isVue3 isVue2 : Bool)
    (h : options = none ∨ ∃ o, options = some o ∧ o.reportUrl = "") :
    install options isVue3 isVue2 = .configError "请提供 reportUrl 选项" ∧
    ∀ opts listeners, install options isVue3 isVue2 ≠ .installed opts listeners := by
  have heq : install options isVue3 isVue2 = .configError "请提供 reportUrl 选项" := by
    rcases h with rfl | ⟨o, rfl, hurl⟩
    · rfl
    · simp [install, hurl]
  refine ⟨heq, fun opts listeners hcon => ?_⟩
  rw [heq] at hcon
  exact InstallResult.noConfusion hcon

/-- Witness for C7: installing with no options at all yields the
configuration error. -/
theorem install_missing_reportUrl_witness :
    ((none : Option MonitorOptionsIn) = none ∨
      ∃ o, (none : Option MonitorOptionsIn) = some o ∧ o.reportUrl = "") ∧
    install none true false = .configError "请提供 reportUrl 选项" :=
  ⟨Or.inl rfl, (install_missing_reportUrl none true false (Or.inl rfl)).1⟩

/-- C9: with `filterInputAndScanData` set, the `input`, `compositionend`,
and Enter-`keydown` handlers record `value = "length:<n>"`, never the raw
text: any two captured texts of equal length produce identical recorded
values (noninterference), and the recorded value is exactly the length
summary. -/
theorem filter_sensitive_length_only (v1 v2 : String) (hlen : v1.length = v2.length) :
    inputBreadcrumbValue true v1 = inputBreadcrumbValue true v2 ∧
    compositionEndBreadcrumbValue true v1 = compositionEndBreadcrumbValue true v2 ∧
    (∀ composing key, scanKeydownBreadcrumbValue true composing key v1 =
      scanKeydownBreadcrumbValue true composing key v2) ∧
    inputBreadcrumbValue true v1 = "length:" ++ toString v1.length ∧
    compositionEndBreadcrumbValue true v1 = "length:" ++ toString v1.length ∧
    scanKeydownBreadcrumbValue true false "Enter" v1 =
      some ("length:" ++ toString v1.length) := by
  refine ⟨?_, ?_, ?_, rfl, rfl, ?_⟩
  · simp [inputBreadcrumbValue, hlen]
  · simp [compositionEndBreadcrumbValue, hlen]
  · intro composing key
    simp [scanKeydownBreadcrumbValue, hlen]
  · simp [scanKeydownBreadcrumbValue]

/-- Witness for C9: `"ab"` and `"cd"` have equal length, hence equal
recorded values. -/
theorem filter_sensitive_length_only_witness :
    ("ab" : String).length = ("cd" : String).length ∧
    inputBreadcrumbValue true "ab" = inputBreadcrumbValue true "cd" ∧
    inputBreadcrumbValue true "ab" = "length:2" :=
  ⟨by decide,
    (filter_sensitive_length_only "ab" "cd" (by decide)).1,
    by decide⟩

/-- Runs decompose over appended event lists: the payloads dispatched by the
first segment are unchanged — merely extended — by any later events. -/
theorem runMonitor_append (opts : MonitorOptions) :
    ∀ (es es' : List MonitorEvent) (st : MonitorState),
      runMonitor opts st (es ++ es') =
        ((runMonitor opts (runMonitor opts st es).1 es').1,
          (runMonitor opts st es).2 ++ (runMonitor opts (runMonitor opts st es).1 es').2) := by
  intro es
  induction es with
  | nil =>
    intro es' st
    simp [runMonitor]
  | cons ev rest ih =>
    intro es' st
    simp only [List.cons_append, runMonitor, List.append_eq]
    rw [ih]
    simp [List.append_assoc]

/-- C5: a dispatched payload is a point-in-time capture of the breadcrumb
buffer.  First conjunct: any run splits — the payloads dispatched during
`es` are a prefix of the payloads of `es ++ more`, so later `record`
(or any other) events leave every already-dispatched payload unchanged.
Second conjunct: an accepted report's payload carries exactly the buffer
content at dispatch time (in the source, `JSON.stringify(payload)` is
evaluated synchronously inside `reportError`, before any later mutation of
the live array can run). -/
theorem dispatched_payload_immutable (opts : MonitorOptions) (st : MonitorState)
    (es more : List MonitorEvent) :
    (runMonitor opts st (es ++ more)).2 =
      (runMonitor opts st es).2 ++ (runMonitor opts (runMonitor opts st es).1 more).2 ∧
    (∀ (e : ErrorInfo) (now : Int) (pl : Payload),
        (reportError opts st e now).2 = some pl → pl.breadcrumbs = st.breadcrumbs) := by
  constructor
  · rw [runMonitor_append opts es more st]
  · intro e now pl hpl
    cases hl : mapLookup (getErrorHash e)
        (sweepMap now opts.errorThrottleTime st.errorCache) with
    | none =>
      rw [reportError_eq_accepted_none hl] at hpl
      simp only [Option.some.injEq] at hpl
      rw [← hpl]
    | some t =>
      by_cases hsup : now - t < opts.errorThrottleTime
      · rw [reportError_eq_suppressed hl hsup] at hpl
        simp at hpl
      · rw [reportError_eq_accepted_expired hl hsup] at hpl
        simp only [Option.some.injEq] at hpl
        rw [← hpl]

/-- Witness for C5: a concrete accepted dispatch captures the (empty) buffer,
and a run with a later `record` event extends, without altering, the
dispatched-payload list. -/
theorem dispatched_payload_immutable_witness :
    (reportError sampleOpts ⟨[], []⟩ sampleErr 0).2 = some samplePayload ∧
    samplePayload.breadcrumbs = ([] : List Breadcrumb) ∧
    (runMonitor sampleOpts ⟨[], []⟩
        ([MonitorEvent.report sampleErr 0] ++ [MonitorEvent.record (sampleCrumb 1)])).2 =
      (runMonitor sampleOpts ⟨[], []⟩ [MonitorEvent.report sampleErr 0]).2 ++
        (runMonitor sampleOpts
          (runMonitor sampleOpts ⟨[], []⟩ [MonitorEvent.report sampleErr 0]).1
          [MonitorEvent.record (sampleCrumb 1)]).2 :=
  ⟨by decide,
    (dispatched_payload_immutable sampleOpts ⟨[], []⟩ [] []).2 sampleErr 0 samplePayload
      (by decide),
    (dispatched_payload_immutable sampleOpts ⟨[], []⟩ [MonitorEvent.report sampleErr 0]
      [MonitorEvent.record (sampleCrumb 1)]).1⟩

/-- A hidden tick: `lastFrameTime` is (re)synchronized to `now`, nothing
else changes, nothing is emitted. -/
theorem frameTick_hidden (st : FrameState) (now : Int) :
    frameTick st now true = ({ st with lastFrameTime := now }, none) := rfl

/-- A visible tick whose delta does not exceed 50 ms: only `lastFrameTime`
advances. -/
theorem frameTick_no_drop (st : FrameState) (now : Int)
    (h : ¬ 50 < now - st.lastFrameTime) :
    frameTick st now false = ({ st with lastFrameTime := now }, none) := by
  unfold frameTick
  rw [if_neg (by simp), if_neg h]

/-- A qualifying drop tick with the 100 ms throttle open: the accumulated
record (count incremented, `frameTime` the latest delta) is emitted, the
pending record resets, and the throttle timestamp advances. -/
theorem frameTick_drop_fire (st : FrameState) (now : Int)
    (h5 : 50 < now - st.lastFrameTime) (hfire : (100 : Int) ≤ now - st.throttleLastTime) :
    frameTick st now false =
      ({ st with lastFrameTime := now, pendingFrameDrop := none, throttleLastTime := now },
        some { time := now, frameTime := now - st.lastFrameTime,
               count := pendingCount st + 1 }) := by
  unfold frameTick
  rw [if_neg (by simp), if_pos h5, if_pos hfire]
  cases hp : st.pendingFrameDrop with
  | none => simp [pendingCount, hp]
  | some q => simp [pendingCount, hp]

/-- A qualifying drop tick inside the throttle window: the drop only
accumulates into the pending record; nothing is emitted. -/
theorem frameTick_drop_hold (st : FrameState) (now : Int)
    (h5 : 50 < now - st.lastFrameTime) (hfire : ¬ (100 : Int) ≤ now - st.throttleLastTime) :
    frameTick st now false =
      ({ st with
          lastFrameTime := now
          pendingFrameDrop := some (now - st.lastFrameTime, pendingCount st + 1) }, none) := by
  unfold frameTick
  rw [if_neg (by simp), if_pos h5, if_neg hfire]
  cases hp : st.pendingFrameDrop with
  | none => simp [pendingCount, hp]
  | some q => simp [pendingCount, hp]

/-- One tick preserves the drop count: the emitted count plus the new
pending count equals the old pending count plus one exactly when the tick
is a qualifying drop (visible, delta > 50). -/
theorem frameTick_conservation (st : FrameState) (now : Int) (hid : Bool) :
    emCount (frameTick st now hid).2 + pendingCount (frameTick st now hid).1 =
      pendingCount st +
        (if hid then 0 else if 50 < now - st.lastFrameTime then 1 else 0) := by
  cases hid with
  | true =>
    rw [frameTick_hidden]
    simp [emCount, pendingCount]
  | false =>
    by_cases h5 : 50 < now - st.lastFrameTime
    · by_cases hfire : (100 : Int) ≤ now - st.throttleLastTime
      · rw [frameTick_drop_fire st now h5 hfire]
        simp [emCount, pendingCount, h5]
      · rw [frameTick_drop_hold st now h5 hfire]
        simp [emCount, pendingCount, h5]
    · rw [frameTick_no_drop st now h5]
      simp [emCount, pendingCount, h5]

/-- One tick either emits nothing and leaves the throttle timestamp alone,
or fires: the emission is stamped `now`, at least 100 ms after the previous
firing, and the timestamp advances to `now`. -/
theorem frameTick_throttle (st : FrameState) (now : Int) (hid : Bool) :
    ((frameTick st now hid).2 = none ∧
      (frameTick st now hid).1.throttleLastTime = st.throttleLastTime) ∨
    (∃ em, (frameTick st now hid).2 = some em ∧ em.time = now ∧
      100 ≤ now - st.throttleLastTime ∧
      (frameTick st now hid).1.throttleLastTime = now) := by
  cases hid with
  | true =>
    rw [frameTick_hidden]
    exact Or.inl ⟨rfl, rfl⟩
  | false =>
    by_cases h5 : 50 < now - st.lastFrameTime
    · by_cases hfire : (100 : Int) ≤ now - st.throttleLastTime
      · rw [frameTick_drop_fire st now h5 hfire]
        exact Or.inr ⟨_, rfl, rfl, hfire, rfl⟩
      · rw [frameTick_drop_hold st now h5 hfire]
        exact Or.inl ⟨rfl, rfl⟩
    · rw [frameTick_no_drop st now h5]
      exact Or.inl ⟨rfl, rfl⟩

/-- An emitted `frame-drop` record reports a delta above the 50 ms threshold
and a positive accumulated count. -/
theorem frameTick_emit_vals (st : FrameState) (now : Int) (hid : Bool)
    (em : FrameEmit) (hem : (frameTick st now hid).2 = some em) :
    50 < em.frameTime ∧ 0 < em.count := by
  cases hid with
  | true =>
    rw [frameTick_hidden] at hem
    simp at hem
  | false =>
    by_cases h5 : 50 < now - st.lastFrameTime
    · by_cases hfire : (100 : Int) ≤ now - st.throttleLastTime
      · rw [frameTick_drop_fire st now h5 hfire] at hem
        simp only [Option.some.injEq] at hem
        rw [← hem]
        exact ⟨h5, Nat.succ_pos _⟩
      · rw [frameTick_drop_hold st now h5 hfire] at hem
        simp at hem
    · rw [frameTick_no_drop st now h5] at hem
      simp at hem

/-- A tick that emits resets the pending record. -/
theorem frameTick_pending_reset (st : FrameState) (now : Int) (hid : Bool)
    (hem : ((frameTick st now hid).2).isSome = true) :
    (frameTick st now hid).1.pendingFrameDrop = none := by
  cases hid with
  | true =>
    rw [frameTick_hidden] at hem
    simp at hem
  | false =>
    by_cases h5 : 50 < now - st.lastFrameTime
    · by_cases hfire : (100 : Int) ≤ now - st.throttleLastTime
      · rw [frameTick_drop_fire st now h5 hfire]
      · rw [frameTick_drop_hold st now h5 hfire] at hem
        simp at hem
    · rw [frameTick_no_drop st now h5] at hem
      simp at hem


/-- Conservation over a run: emitted counts plus the final pending count
account exactly for the initial pending count plus every qualifying drop. -/
theorem runFrames_conservation :
    ∀ (ticks : List (Int × Bool)) (st : FrameState),
      emitTotal (runFrames st ticks).2 + pendingCount (runFrames st ticks).1 =
        pendingCount st + dropCount st ticks := by
  intro ticks
  induction ticks with
  | nil =>
    intro st
    simp [runFrames, emitTotal, dropCount]
  | cons tk rest ih =>
    obtain ⟨now, hid⟩ := tk
    intro st
    have hsplit : emitTotal (runFrames st ((now, hid) :: rest)).2 =
        emCount (frameTick st now hid).2 +
          emitTotal (runFrames (frameTick st now hid).1 rest).2 := by
      simp only [runFrames]
      cases hem : (frameTick st now hid).2 with
      | none => simp [emitTotal, emCount]
      | some em => simp [emitTotal, emCount]
    have hst : (runFrames st ((now, hid) :: rest)).1 =
        (runFrames (frameTick st now hid).1 rest).1 := by
      simp only [runFrames]
    rw [hsplit, hst, dropCount]
    have hc := frameTick_conservation st now hid
    have hr := ih (frameTick st now hid).1
    omega

/-- Spacing over a run: consecutive emissions are at least 100 ms apart,
and every emission is at least 100 ms after the initial throttle stamp. -/
theorem runFrames_spacing :
    ∀ (ticks : List (Int × Bool)) (st : FrameState),
      List.Chain' (fun a b => a.time + 100 ≤ b.time) (runFrames st ticks).2 ∧
      ∀ em ∈ (runFrames st ticks).2, st.throttleLastTime + 100 ≤ em.time := by
  intro ticks
  induction ticks with
  | nil =>
    intro st
    constructor
    · simp [runFrames]
    · intro em hem
      simp [runFrames] at hem
  | cons tk rest ih =>
    obtain ⟨now, hid⟩ := tk
    intro st
    obtain ⟨ihc, ihb⟩ := ih (frameTick st now hid).1
    rcases frameTick_throttle st now hid with ⟨hnone, hsame⟩ | ⟨em, hsome, htime, hfire, hadv⟩
    · constructor
      · simp only [runFrames, hnone]
        simpa using ihc
      · intro x hx
        simp only [runFrames, hnone, List.nil_append] at hx
        have := ihb x hx
        rw [hsame] at this
        exact this
    · constructor
      · simp only [runFrames, hsome, List.singleton_append]
        rw [List.chain'_cons']
        refine ⟨?_, ihc⟩
        intro b hb
        have hbmem : b ∈ (runFrames (frameTick st now hid).1 rest).2 :=
          List.mem_of_mem_head? hb
        have := ihb b hbmem
        rw [hadv, htime] at *
        omega
      · intro x hx
        simp only [runFrames, hsome, List.singleton_append] at hx
        rcases List.mem_cons.mp hx with rfl | hx'
        · omega
        · have := ihb x hx'
          rw [hadv] at this
          omega

/-- Emitted values over a run: every emission carries a delta above 50 ms
and a positive count. -/
theorem runFrames_emit_vals :
    ∀ (ticks : List (Int × Bool)) (st : FrameState),
      ∀ em ∈ (runFrames st ticks).2, 50 < em.frameTime ∧ 0 < em.count := by
  intro ticks
  induction ticks with
  | nil =>
    intro st em hem
    simp [runFrames] at hem
  | cons tk rest ih =>
    obtain ⟨now, hid⟩ := tk
    intro st em hem
    simp only [runFrames] at hem
    cases hfe : (frameTick st now hid).2 with
    | none =>
      rw [hfe] at hem
      simp only [List.nil_append] at hem
      exact ih (frameTick st now hid).1 em hem
    | some em' =>
      rw [hfe] at hem
      simp only [List.singleton_append] at hem
      rcases List.mem_cons.mp hem with rfl | hem'
      · exact frameTick_emit_vals st now hid em hfe
      · exact ih (frameTick st now hid).1 em hem'

/-- C3 counterexample: the 100 ms throttle of `src/utils.ts` is
*leading-edge* (it fires immediately and never schedules a trailing call),
so a qualifying drop tick need not ever be reflected in an emission.
Concretely, from start time 0: a drop tick at 200 emits at once
(`count = 1`), a second drop tick at 260 (inside the 100 ms window) only
accumulates, and — the run being complete — is never emitted: 2 qualifying
drops but total emitted count 1. -/
theorem frameDrop_trailing_claim_cex :
    dropCount (initFrameState 0) [(200, false), (260, false)] = 2 ∧
    (runFrames (initFrameState 0) [(200, false), (260, false)]).2 =
      [{ time := 200, frameTime := 200, count := 1 }] ∧
    emitTotal (runFrames (initFrameState 0) [(200, false), (260, false)]).2 = 1 := by
  decide

/-- C3 amended: the frame-drop emission is a *leading-edge* 100 ms throttle:
(i) qualifying drops are conserved — the counts of all emissions plus the
final pending count equal the number of qualifying drop ticks, so each
emission's `count` is exactly the number of qualifying drops since the
previous emission; (ii) consecutive emissions are at least 100 ms apart (at
most one per 100 ms window); (iii) every emission reports a delta above
50 ms and a positive count; (iv) the pending record resets after each
emission; (v) an emission happens only at a qualifying tick (visible,
delta > 50), is stamped with that tick's time, and its `frameTime` is
exactly that tick's delta — the emitting tick being itself the latest
qualifying drop tick, the reported `frameTime` is the most recent
qualifying delta.  A drop arriving inside the window is emitted only if a
later qualifying tick falls outside it — not "eventually" in every run. -/
theorem frameDrop_throttle_amended (t0 : Int) (ticks : List (Int × Bool)) :
    (emitTotal (runFrames (initFrameState t0) ticks).2 +
        pendingCount (runFrames (initFrameState t0) ticks).1 =
      dropCount (initFrameState t0) ticks) ∧
    List.Chain' (fun a b => a.time + 100 ≤ b.time)
      (runFrames (initFrameState t0) ticks).2 ∧
    (∀ em ∈ (runFrames (initFrameState t0) ticks).2, 50 < em.frameTime ∧ 0 < em.count) ∧
    (∀ (st : FrameState) (now : Int) (hid : Bool),
      ((frameTick st now hid).2).isSome = true →
        (frameTick st now hid).1.pendingFrameDrop = none) ∧
    (∀ (st : FrameState) (now : Int) (hid : Bool) (em : FrameEmit),
      (frameTick st now hid).2 = some em →
        hid = false ∧ 50 < now - st.lastFrameTime ∧ em.time = now ∧
        em.frameTime = now - st.lastFrameTime) := by
  refine ⟨?_, (runFrames_spacing ticks (initFrameState t0)).1,
    runFrames_emit_vals ticks (initFrameState t0),
    frameTick_pending_reset, ?_⟩
  · have h := runFrames_conservation ticks (initFrameState t0)
    simpa [initFrameState, pendingCount] using h
  · intro st now hid em hem
    cases hid with
    | true =>
      rw [frameTick_hidden] at hem
      simp at hem
    | false =>
      by_cases h5 : 50 < now - st.lastFrameTime
      · by_cases hfire : (100 : Int) ≤ now - st.throttleLastTime
        · rw [frameTick_drop_fire st now h5 hfire] at hem
          simp only [Option.some.injEq] at hem
          rw [← hem]
          exact ⟨rfl, h5, rfl, rfl⟩
        · rw [frameTick_drop_hold st now h5 hfire] at hem
          simp at hem
      · rw [frameTick_no_drop st now h5] at hem
        simp at hem

/-- Witness for the amended C3: three drop ticks at 200, 260, 400 — the
first emits (count 1), the second accumulates, the third emits the
accumulated window (count 2); 100 ms spacing holds, counts are conserved,
the pending record resets on emission, and a concrete emission's
`frameTime` equals the emitting tick's delta. -/
theorem frameDrop_throttle_amended_witness :
    (runFrames (initFrameState 0) [(200, false), (260, false), (400, false)]).2 =
      [{ time := 200, frameTime := 200, count := 1 },
        { time := 400, frameTime := 140, count := 2 }] ∧
    (emitTotal (runFrames (initFrameState 0) [(200, false), (260, false), (400, false)]).2 +
        pendingCount
          (runFrames (initFrameState 0) [(200, false), (260, false), (400, false)]).1 =
      dropCount (initFrameState 0) [(200, false), (260, false), (400, false)]) ∧
    ((frameTick (⟨0, none, 0⟩ : FrameState) 200 false).2).isSome = true ∧
    (frameTick (⟨0, none, 0⟩ : FrameState) 200 false).1.pendingFrameDrop = none ∧
    ((frameTick (⟨0, none, 0⟩ : FrameState) 200 false).2 =
      some { time := 200, frameTime := 200, count := 1 } ∧
      ({ time := 200, frameTime := 200, count := 1 } : FrameEmit).frameTime =
        (200 : Int) - (⟨0, none, 0⟩ : FrameState).lastFrameTime) :=
  ⟨by decide,
    (frameDrop_throttle_amended 0 [(200, false), (260, false), (400, false)]).1,
    by decide,
    (frameDrop_throttle_amended 0 []).2.2.2.1 ⟨0, none, 0⟩ 200 false (by decide),
    by decide,
    ((frameDrop_throttle_amended 0 []).2.2.2.2 ⟨0, none, 0⟩ 200 false
      { time := 200, frameTime := 200, count := 1 } (by decide)).2.2.2⟩

/-- C8 counterexample: a hidden tick at 60 resynchronizes `lastFrameTime`,
yet the first tick after visibility resumes, at 200, still computes
`delta = 140 > 50` and emits a frame-drop breadcrumb — refuting "the first
tick after visibility resumes does not produce a frame-drop breadcrumb" as
a universal statement. -/
theorem frame_resume_drop_cex :
    (frameTick (initFrameState 0) 60 true).2 = none ∧
    (runFrames (initFrameState 0) [(60, true), (200, false)]).2 =
      [{ time := 200, frameTime := 140, count := 1 }] := by
  decide

/-- C8 amended: a hidden tick never registers a drop and resynchronizes
`lastFrameTime` to its own time; a visible tick registers a drop only when
its delta over the *previous tick* exceeds 50 ms — hence the first visible
tick after a hidden tick within 50 ms registers nothing (the hidden
interval before the last hidden tick is excluded from the delta), but a
longer gap since the last (hidden) tick still counts as a drop. -/
theorem frame_hidden_resync_amended (st : FrameState) (th tv : Int)
    (hgap : tv - th ≤ 50) :
    (frameTick st th true).2 = none ∧
    (frameTick st th true).1.lastFrameTime = th ∧
    (frameTick (frameTick st th true).1 tv false).2 = none ∧
    (frameTick (frameTick st th true).1 tv false).1.pendingFrameDrop =
      st.pendingFrameDrop ∧
    (∀ (st' : FrameState) (now : Int),
      ((frameTick st' now false).2).isSome = true → 50 < now - st'.lastFrameTime) := by
  have h1 : (frameTick st th true).1 = { st with lastFrameTime := th } := rfl
  have hnd : ¬ 50 < tv - ({ st with lastFrameTime := th } : FrameState).lastFrameTime := by
    show ¬ (50 : Int) < tv - th
    omega
  refine ⟨rfl, rfl, ?_, ?_, ?_⟩
  · rw [h1, frameTick_no_drop _ _ hnd]
  · rw [h1, frameTick_no_drop _ _ hnd]
  · intro st' now hem
    by_cases h5 : 50 < now - st'.lastFrameTime
    · exact h5
    · exfalso
      rw [frameTick_no_drop st' now h5] at hem
      simp at hem

/-- Witness for the amended C8: hidden tick at 60, visible tick at 100
(gap 40 ≤ 50): no emission; and a visible tick at 200 from time 0 does
emit, with delta 200 > 50. -/
theorem frame_hidden_resync_amended_witness :
    ((100 : Int) - 60 ≤ 50) ∧
    (frameTick (frameTick (initFrameState 0) 60 true).1 100 false).2 = none ∧
    ((frameTick (⟨0, none, 0⟩ : FrameState) 200 false).2).isSome = true ∧
    50 < (200 : Int) - (⟨0, none, 0⟩ : FrameState).lastFrameTime :=
  ⟨by decide,
    (frame_hidden_resync_amended (initFrameState 0) 60 100 (by decide)).2.2.1,
    by decide,
    (frame_hidden_resync_amended (initFrameState 0) 60 100 (by decide)).2.2.2.2
      ⟨0, none, 0⟩ 200 (by decide)⟩

end VueMonitor
